import Mathlib

/-!
# Verification of the WhatNowAI multi-source event aggregation engine

Shallow embedding of the event aggregation, deduplication and
personalization-ranking engine of the WhatNowAI repository:

* `services/unified_events_service.py` — orchestration, deduplication,
  rule-based evaluation, final ranking/filtering, cost stripping;
* `services/openai_service.py` — model-assisted ranking, response parsing,
  fallback and neutral ranking;
* `services/ticketmaster_service.py` — the `Event` dataclass and the
  Ticketmaster provider adapter's record parser;
* `services/allevents_service.py` — the AllEvents provider adapter's
  record converter.

Python strings are modelled as Lean `String` over their ASCII fragment,
Python floats as `Rat` (no claim under consideration depends on binary
floating-point rounding), Python dicts keyed by strings as association
lists, and raising code as `Except String` / `Option` values.
-/

namespace WhatNowAI

/- Batteries marks the `Rat` field operations `@[irreducible]`, which
stops `decide` from evaluating concrete score arithmetic; restore the
default transparency for this file so witnesses can be checked by
evaluation. -/
attribute [local semireducible] Rat.add Rat.sub Rat.mul Rat.inv

/-! ## Python string primitives (ASCII fragment) -/

/-- Python `\s` whitespace class over ASCII: space, tab, newline,
carriage return, vertical tab, form feed. -/
def isPySpace (c : Char) : Bool :=
  c = ' ' || c = '\t' || c = '\n' || c = '\r' || c = '\x0b' || c = '\x0c'

/-- Python regex `\w` word character over ASCII: letters, digits, underscore. -/
def isWordChar (c : Char) : Bool :=
  c.isAlphanum || c = '_'

/-- Python `str.lower()` over ASCII. -/
def pyLower (s : String) : String :=
  String.mk (s.toList.map Char.toLower)

/-- Python `str.strip()`: drop leading and trailing whitespace. -/
def pyStripList (l : List Char) : List Char :=
  ((l.dropWhile isPySpace).reverse.dropWhile isPySpace).reverse

/-- Python `str.strip()` on strings. -/
def pyStrip (s : String) : String :=
  String.mk (pyStripList s.toList)

/-- `startsWithList needle hay`: `needle` is an initial segment of `hay`. -/
def startsWithList (needle hay : List Char) : Bool :=
  match needle, hay with
  | [], _ => true
  | _ :: _, [] => false
  | a :: as, b :: bs => a = b && startsWithList as bs

/-- Python substring containment `needle in hay` on character lists. -/
def subList (needle hay : List Char) : Bool :=
  match hay with
  | [] => needle.isEmpty
  | _ :: t => startsWithList needle hay || subList needle t

/-- Python `needle in hay` on strings. -/
def subStr (needle hay : String) : Bool :=
  subList needle.toList hay.toList

/-- Helper for `pySplit`: accumulate the current word and finished words. -/
def pySplitAux : List Char → List Char → List String → List String
  | [], cur, acc => acc ++ (if cur.isEmpty then [] else [String.mk cur.reverse])
  | c :: t, cur, acc =>
    if isPySpace c then
      pySplitAux t [] (acc ++ (if cur.isEmpty then [] else [String.mk cur.reverse]))
    else
      pySplitAux t (c :: cur) acc

/-- Python `str.split()` with no argument: split on runs of whitespace,
discarding empty pieces. -/
def pySplit (s : String) : List String :=
  pySplitAux s.toList [] []

/-! ## Numeric formatting

Python's `f"{score:.2f}"` formatting is modelled as round-half-to-even at
two decimal places on the rational value. -/

/-- Round half to even, as Python's float formatting does at ties. -/
def roundHalfEven (q : Rat) : Int :=
  let f : Int := Int.floor q
  let r : Rat := q - (f : Rat)
  if r < 1/2 then f
  else if 1/2 < r then f + 1
  else if f % 2 = 0 then f else f + 1

/-- Two-decimal fixed-point rendering of a rational, modelling `"%.2f"`. -/
def fmt2 (q : Rat) : String :=
  let n : Int := roundHalfEven (q * 100)
  let sign := if n < 0 then "-" else ""
  let m := n.natAbs
  let frac := m % 100
  sign ++ toString (m / 100) ++ "." ++ (if frac < 10 then "0" else "") ++ toString frac

/-! ## The `Event` dataclass (`services/ticketmaster_service.py`)

The Python dataclass also declares a `behavioral_fit : Dict[str, Any]`
field; it is never read or written on any path modelled here and `Any`
has no shallow embedding, so it is omitted.  `personalization_factors`
is a string-keyed dict of numeric sub-scores, modelled as an
association list. -/

structure Event where
  id : String
  name : String
  url : String
  date : String
  time : String
  venue : String
  address : String
  city : String
  latitude : Rat
  longitude : Rat
  category : String
  subcategory : String := ""
  price_min : Option Rat := none
  price_max : Option Rat := none
  image_url : String := ""
  description : String := ""
  relevance_score : Rat := 0
  personalization_factors : List (String × Rat) := []
  recommendation_reason : String := ""
  interest_matches : List String := []
deriving DecidableEq, Repr, Inhabited

/-- Python `factors.get(key, 0)` on the personalization-factors dict. -/
def pfGet (fs : List (String × Rat)) (k : String) : Rat :=
  match fs.find? (fun p => p.fst = k) with
  | some p => p.snd
  | none => 0

/-! ## Event-name normalization (`_normalize_event_name`)

`re.sub(r'\b(the|a|an)\b', '', name, flags=re.IGNORECASE)` deletes every
maximal run of word characters that spells an article (the pattern's
letters are word characters, so a match must start and end at word-run
boundaries); then `[^a-z0-9\s]` characters are removed; then runs of
whitespace collapse to one space and the result is stripped. -/

/-- A word run equal to `the`, `a` or `an`, case-insensitively. -/
def isArticleRun (r : List Char) : Bool :=
  let s := r.map Char.toLower
  s = ['t', 'h', 'e'] || s = ['a'] || s = ['a', 'n']

/-- Emit a completed word run: articles are deleted, other runs kept. -/
def emitRun (r : List Char) : List Char :=
  if isArticleRun r then [] else r

/-- One pass deleting article word-runs.  `cur` holds the current word
run reversed. -/
def removeArticlesAux : List Char → List Char → List Char
  | [], cur => emitRun cur.reverse
  | c :: t, cur =>
    if isWordChar c then removeArticlesAux t (c :: cur)
    else emitRun cur.reverse ++ c :: removeArticlesAux t []

/-- `re.sub(r'\b(the|a|an)\b', '', ·, flags=re.IGNORECASE)`. -/
def removeArticles (l : List Char) : List Char :=
  removeArticlesAux l []

/-- Characters kept by `re.sub(r'[^a-z0-9\s]', '', ·)`. -/
def keepChar (c : Char) : Bool :=
  ('a' ≤ c && c ≤ 'z') || ('0' ≤ c && c ≤ '9') || isPySpace c

/-- `re.sub(r'\s+', ' ', ·)`: collapse whitespace runs to single spaces.
`inRun` records whether the previous character was whitespace. -/
def collapseWsAux : List Char → Bool → List Char
  | [], _ => []
  | c :: t, inRun =>
    if isPySpace c then
      if inRun then collapseWsAux t true else ' ' :: collapseWsAux t true
    else c :: collapseWsAux t false

/-- Collapse whitespace runs to single spaces. -/
def collapseWs (l : List Char) : List Char :=
  collapseWsAux l false

/-- `UnifiedEventsService._normalize_event_name`. -/
def normalizeEventName (s : String) : String :=
  String.mk (pyStripList (collapseWs ((removeArticles s.toList).filter keepChar)))

/-- `UnifiedEventsService._create_event_key`: normalized lower-stripped
name, lower-stripped venue and stripped date joined by `|`.  The
`except` arm producing an `unknown_{id(event)}` key is unreachable in
the embedding because every field access is total. -/
def createEventKey (e : Event) : String :=
  normalizeEventName (pyStrip (pyLower e.name)) ++ "|" ++
    pyStrip (pyLower e.venue) ++ "|" ++ pyStrip e.date

/-! ## Completeness score and duplicate replacement -/

/-- `UnifiedEventsService._calculate_completeness_score`.  The Python
`hasattr(event, 'source')` test is always false — the dataclass declares
no `source` field and none is ever attached — so only the
`'ticketmaster' in event_id` test contributes the source bonus. -/
def calculateCompletenessScore (e : Event) : Rat :=
  (if e.name ≠ "" then 1 else 0) +
  (if e.description ≠ "" then 1 else 0) +
  (if e.image_url ≠ "" then 1/2 else 0) +
  (if e.venue ≠ "TBA" then 1/2 else 0) +
  (if e.address ≠ "" then 1/2 else 0) +
  (if e.time ≠ "TBA" then 1/2 else 0) +
  (if e.url ≠ "" then 1/2 else 0) +
  (if subStr "ticketmaster" e.id then 1/2 else 0)

/-- `UnifiedEventsService._should_replace_event`: keep the new record
exactly when its completeness score is strictly higher. -/
def shouldReplaceEvent (existing new : Event) : Bool :=
  calculateCompletenessScore existing < calculateCompletenessScore new

/-! ## Deduplication (`_deduplicate_events`)

`seen_events` is a dict from event key to the representative currently
kept, modelled as an association list looked up by first match;
assignment to an existing key replaces that entry in place.
`deduplicated.remove(existing)` removes the first list element equal
(as a Python dataclass value) to the existing representative, modelled
by `List.erase`. -/

/-- Dict lookup `event_key in seen_events` / `seen_events[event_key]`. -/
def seenLookup (seen : List (String × Event)) (k : String) : Option Event :=
  match seen.find? (fun p => p.fst = k) with
  | some p => some p.snd
  | none => none

/-- Dict assignment `seen_events[event_key] = event` on an existing key. -/
def seenUpdate (seen : List (String × Event)) (k : String) (e : Event) :
    List (String × Event) :=
  seen.map (fun p => if p.fst = k then (k, e) else p)

/-- The loop body state of `_deduplicate_events`: `seen` is the dict,
`acc` the `deduplicated` output list built so far. -/
def dedupAux (seen : List (String × Event)) (acc : List Event) :
    List Event → List Event
  | [] => acc
  | e :: rest =>
    let k := createEventKey e
    match seenLookup seen k with
    | none => dedupAux ((k, e) :: seen) (acc ++ [e]) rest
    | some existing =>
      if shouldReplaceEvent existing e then
        dedupAux (seenUpdate seen k e) (acc.erase existing ++ [e]) rest
      else
        dedupAux seen acc rest

/-- `UnifiedEventsService._deduplicate_events`. -/
def deduplicateEvents (events : List Event) : List Event :=
  dedupAux [] [] events

/-! ## Stable descending sort

Python's `sorted(..., key=K, reverse=True)` and `list.sort(...)` are
stable; any stable sort with the same comparator produces the same
list, so they are modelled as a stable insertion sort parameterized by
a strict "key greater" test `lt b a`. -/

/-- Insert `a` into a descending-sorted list: `a` goes before the first
element whose key is strictly smaller, so originally-earlier elements
with an equal key stay first (stability). -/
def insertDescBy (lt : α → α → Bool) (a : α) : List α → List α
  | [] => [a]
  | b :: t => if lt b a then a :: b :: t else b :: insertDescBy lt a t

/-- Stable descending sort by the strict comparison `lt`. -/
def sortDescBy (lt : α → α → Bool) (l : List α) : List α :=
  l.foldl (fun acc a => insertDescBy lt a acc) []

/-- Strict lexicographic order on rational pairs, as Python compares
`(k1, k2)` tuples. -/
def lexLt (a b : Rat × Rat) : Bool :=
  a.1 < b.1 || (a.1 = b.1 && a.2 < b.2)

/-! ## OpenAI ranking service (`services/openai_service.py`)

The JSON text of the backend response is decoded by `json.loads`; the
embedding starts from the decoded outcome: either the response held no
parsable JSON array (`malformed`, covering both a missing `[`…`]` pair
and a `json.loads` failure and any entry of a non-dict shape, all of
which land in the same `except` handler) or a list of ranking entries,
each a JSON object read with `.get` and its defaults. -/

structure RankingEntry where
  event_id : Option Int
  relevance_score : Option Rat
  reason : Option String
deriving DecidableEq, Repr

inductive ParseOutcome where
  | malformed
  | parsed (rankings : List RankingEntry)
deriving DecidableEq, Repr

/-- Attach one ranking entry to an event:
`event.relevance_score = ranking.get('relevance_score', 0.5)` and
`event.recommendation_reason = ranking.get('reason', 'AI recommendation')`. -/
def attachRanking (e : Event) (r : RankingEntry) : Event :=
  { e with relevance_score := r.relevance_score.getD (1/2),
           recommendation_reason := r.reason.getD "AI recommendation" }

/-- `OpenAIService._neutral_ranking`: score everything 0.5 and truncate. -/
def neutralRanking (events : List Event) (maxEvents : Nat) : List Event :=
  (events.map (fun e =>
    { e with relevance_score := 1/2,
             recommendation_reason := "Found near your location" })).take maxEvents

/-- `OpenAIService._fallback_ranking`: count activity words appearing as
substrings of the event text, score `matches / len(activity_words)`
capped at 1, sort descending by score and truncate. -/
def fallbackRanking (events : List Event) (userActivity : String)
    (maxEvents : Nat) : List Event :=
  if pyStrip userActivity = "" then neutralRanking events maxEvents
  else
    let activityWords := pySplit (pyLower userActivity)
    let scored := events.map (fun e =>
      let eventText := pyLower (e.name ++ " " ++ e.description ++ " " ++ e.category)
      let nMatches : Nat := (activityWords.filter (fun w => subStr w eventText)).length
      let score : Rat :=
        if ¬ activityWords.isEmpty then
          min ((nMatches : Rat) / (activityWords.length : Rat)) 1
        else 1/2
      { e with relevance_score := score,
               recommendation_reason := "Text matching score: " ++ fmt2 score })
    (sortDescBy (fun a b => a.relevance_score < b.relevance_score) scored).take maxEvents

/-- One iteration of the mapping loop in `_parse_ranking_response`:
`event_id = ranking.get('event_id', 0)`, and only entries with
`0 <= event_id < len(original_events)` attach and append. -/
def parseStep (originalEvents : List Event) (acc : List Event)
    (r : RankingEntry) : List Event :=
  let eid := r.event_id.getD 0
  if 0 ≤ eid then
    match originalEvents[eid.toNat]? with
    | some e => acc ++ [attachRanking e r]
    | none => acc
  else acc

/-- `OpenAIService._parse_ranking_response`.  On a decoded array, each
entry with an in-range `event_id` attaches its score to the original
event at that index and is appended; entries with out-of-range ids are
skipped, and submitted events never named by an entry are not emitted.
The result is sorted descending by attached score.  A malformed
response falls back to `_fallback_ranking(original_events, "", len)`. -/
def parseRankingResponse (outcome : ParseOutcome) (originalEvents : List Event) :
    List Event :=
  match outcome with
  | .malformed => fallbackRanking originalEvents "" originalEvents.length
  | .parsed rankings =>
    sortDescBy (fun a b => a.relevance_score < b.relevance_score)
      (rankings.foldl (parseStep originalEvents) [])

/-- Outcome of one call to the model-assisted backend: the API call
raised (network/transport error, caught at the call site) or returned a
response text with the given decoded outcome. -/
inductive AICall where
  | failed
  | response (p : ParseOutcome)
deriving DecidableEq, Repr

/-- `OpenAIService.rank_events_by_activity` (availability already
checked by the caller): empty input short-circuits, blank activity text
gets the neutral ranking, an API exception falls back to
`_fallback_ranking`, and a response is parsed and truncated to
`max_events`. -/
def rankEventsByActivity (call : AICall) (events : List Event)
    (userActivity : String) (maxEvents : Nat) : List Event :=
  if events.isEmpty then []
  else if pyStrip userActivity = "" then neutralRanking events maxEvents
  else
    match call with
    | .failed => fallbackRanking events userActivity maxEvents
    | .response p => (parseRankingResponse p events).take maxEvents

/-! ## Rule-based evaluation (`_rule_based_evaluation`)

The loop body calls `self._calculate_prompt_relevance(...)` (when the
activity text is non-empty) and, unconditionally,
`self._calculate_location_proximity(...)`.  Neither method is defined
anywhere in the repository (`_calculate_activity_match` exists but is
never called), so each call raises `AttributeError` at run time;
nothing between the call sites and `search_events` catches it.  The
attribute lookups are embedded as `Except.error` values.

The embedding fixes `user_profile = None` and
`personalization_data = None` (a legal call configuration: both
parameters default to `None`), so `user_interests` is empty and the
interest-match step, gated on `if user_profile:`, is skipped.  `datetime.now()`
in `_calculate_time_relevance` is abstracted as a `days` oracle giving
each event's parsed `(event_date - now).days`, `none` standing for a
missing/`TBA`/unparsable date. -/

/-- Attribute lookup `self._calculate_prompt_relevance`: no such method
exists on `UnifiedEventsService`, so Python raises `AttributeError`. -/
def calcPromptRelevance (_e : Event) (_userActivity : String)
    (_userInterests : List String) : Except String Rat :=
  .error "AttributeError: _calculate_prompt_relevance"

/-- Attribute lookup `self._calculate_location_proximity`: no such
method exists on `UnifiedEventsService`, so Python raises
`AttributeError`. -/
def calcLocationProximity (_e : Event) : Except String Rat :=
  .error "AttributeError: _calculate_location_proximity"

/-- `UnifiedEventsService._calculate_time_relevance` bucket logic over
the parsed day difference (`none` when the date is empty, `'TBA'` or
unparsable, giving the neutral 0.3). -/
def calculateTimeRelevance (daysDiff : Option Int) : Rat :=
  match daysDiff with
  | none => 3/10
  | some d =>
    if d < 0 then 1/10
    else if d ≤ 7 then 1
    else if d ≤ 14 then 8/10
    else if d ≤ 30 then 6/10
    else 4/10

/-- `UnifiedEventsService._generate_recommendation_reason`. -/
def generateRecommendationReason (factors : List (String × Rat))
    (userActivity : String) : String :=
  let promptScore := pfGet factors "prompt_relevance"
  let reasons : List String :=
    (if 7/10 < promptScore then
      ["closely matches your request for \x27" ++ userActivity ++ "\x27"]
     else if 4/10 < promptScore then
      ["relates to your interest in \x27" ++ userActivity ++ "\x27"]
     else if 2/10 < promptScore then
      ["has some connection to \x27" ++ userActivity ++ "\x27"]
     else []) ++
    (if 6/10 < pfGet factors "interest_match" then
      ["aligns with your profile interests"]
     else if 3/10 < pfGet factors "interest_match" then
      ["matches some of your interests"]
     else []) ++
    (if 8/10 < pfGet factors "time_relevance" then ["happening very soon"]
     else if 6/10 < pfGet factors "time_relevance" then ["happening soon"]
     else []) ++
    (if 6/10 < pfGet factors "location_proximity" then ["located nearby"] else []) ++
    (if 8/10 < pfGet factors "completeness" then
      ["has detailed information available"] else [])
  match reasons with
  | [] =>
    if userActivity ≠ "" then
      "recommended based on your request for \x27" ++ userActivity ++
        "\x27 and your location"
    else
      "recommended based on your location and general interests"
  | [r] => "Recommended because it " ++ r
  | [r1, r2] => "Recommended because it " ++ r1 ++ " and " ++ r2
  | _ =>
    "Recommended because it " ++ String.intercalate ", " reasons.dropLast ++
      ", and " ++ reasons.getLastD ""

/-- The loop body of `_rule_based_evaluation` for one event, in source
order: base score 0.1; prompt relevance (weight 0.5) when the activity
text is non-empty — this raises; interest match skipped
(`user_profile` is `None`); time relevance (0.15); completeness / 5
(0.1); location proximity (0.05) — this raises; cap at 1.0 and attach
score, factors and reason. -/
def scoreEventRuleBased (days : Event → Option Int) (userActivity : String)
    (e : Event) : Except String Event := do
  let base : Rat := 1/10
  let (score1, factors1) ←
    if userActivity ≠ "" then do
      let p ← calcPromptRelevance e userActivity []
      pure (base + p * (1/2), [("prompt_relevance", p), ("activity_match", p)])
    else
      pure (base, ([] : List (String × Rat)))
  let t := calculateTimeRelevance (days e)
  let score2 := score1 + t * (15/100)
  let factors2 := factors1 ++ [("time_relevance", t)]
  let c := calculateCompletenessScore e / 5
  let score3 := score2 + c * (1/10)
  let factors3 := factors2 ++ [("completeness", c)]
  let l ← calcLocationProximity e
  let score4 := score3 + l * (5/100)
  let factors4 := factors3 ++ [("location_proximity", l)]
  pure { e with relevance_score := min score4 1,
                personalization_factors := factors4,
                recommendation_reason :=
                  generateRecommendationReason factors4 userActivity }

/-- `UnifiedEventsService._rule_based_evaluation` (profile and
personalization data `None`): score every event, then stable-sort
descending by `(relevance_score, prompt_relevance)`. -/
def ruleBasedEvaluation (days : Event → Option Int) (userActivity : String)
    (events : List Event) : Except String (List Event) := do
  let scored ← events.mapM (scoreEventRuleBased days userActivity)
  pure (sortDescBy (fun a b =>
    lexLt (a.relevance_score, pfGet a.personalization_factors "prompt_relevance")
          (b.relevance_score, pfGet b.personalization_factors "prompt_relevance"))
    scored)

/-! ## Final ranking and filtering (`_final_ranking_and_filtering`) -/

/-- The configured `final_event_limit`. -/
def finalEventLimit : Nat := 30

/-- The strict filter of `_final_ranking_and_filtering`: keep an event
when `relevance_score > 0.2` **or** `prompt_relevance > 0.3` (both
strict). -/
def passesStrictFilter (e : Event) : Bool :=
  (2/10 : Rat) < e.relevance_score ||
    (3/10 : Rat) < pfGet e.personalization_factors "prompt_relevance"

/-- The filtering step of `_final_ranking_and_filtering`: apply the
strict filter; if fewer than 5 events survive and the input was
non-empty, relax to `relevance_score > 0.1`. -/
def filterStage (events : List Event) : List Event :=
  let filtered := events.filter passesStrictFilter
  if filtered.length < 5 && ¬ events.isEmpty then
    events.filter (fun e => (1/10 : Rat) < e.relevance_score)
  else filtered

/-- Sort key of `_final_ranking_and_filtering`:
`(prompt_relevance, relevance_score)`, descending. -/
def finalSortKey (e : Event) : Rat × Rat :=
  (pfGet e.personalization_factors "prompt_relevance", e.relevance_score)

/-- `UnifiedEventsService._final_ranking_and_filtering`: filter (with
relaxation), stable-sort descending by
`(prompt_relevance, relevance_score)`, truncate to `final_event_limit`. -/
def finalRankingAndFiltering (events : List Event) : List Event :=
  (sortDescBy (fun a b => lexLt (finalSortKey a) (finalSortKey b))
    (filterStage events)).take finalEventLimit

/-- `UnifiedEventsService._remove_cost_information`: both price fields
exist on every `Event`, so each event's prices are set to `None`
and nothing else changes. -/
def removeCostInformation (events : List Event) : List Event :=
  events.map (fun e => { e with price_min := none, price_max := none })

/-! ## Orchestration (`search_events`) -/

/-- Decidable equality for `Except` outcomes, so concrete pipeline runs
can be checked by evaluation. -/
instance exceptDecEq {ε α : Type} [DecidableEq ε] [DecidableEq α] :
    DecidableEq (Except ε α) := fun a b =>
  match a, b with
  | .error x, .error y =>
    if h : x = y then .isTrue (h ▸ rfl)
    else .isFalse (fun hh => h (Except.error.inj hh))
  | .ok x, .ok y =>
    if h : x = y then .isTrue (h ▸ rfl)
    else .isFalse (fun hh => h (Except.ok.inj hh))
  | .error _, .ok _ => .isFalse (fun hh => Except.noConfusion hh)
  | .ok _, .error _ => .isFalse (fun hh => Except.noConfusion hh)

/-- One provider fetch outcome: the adapter's `search_events` either
returned a list or raised. -/
abbrev ProviderResult := Except String (List Event)

/-- `UnifiedEventsService._search_source_safely`: a raising provider
contributes `[]`, and a `None`/empty result is normalized to `[]`
(`events if events else []`). -/
def searchSourceSafely (r : ProviderResult) : List Event :=
  match r with
  | .ok events => events
  | .error _ => []

/-- The fan-out loop of `search_events`: each completed source's events
are appended (`all_events.extend(events)`); sources that raise or time
out contribute nothing.  Completion order is the list order. -/
def fanOut (providers : List ProviderResult) : List Event :=
  (providers.map searchSourceSafely).foldl (· ++ ·) []

/-- Availability and outcome of the model-assisted backend for one
request, as `_apply_ai_evaluation` sees it. -/
inductive BackendOutcome where
  | unavailable
  | available (call : AICall)
deriving DecidableEq, Repr

/-- `UnifiedEventsService._apply_ai_evaluation` reduced to its
`ranked_events` payload.  When the backend is available the OpenAI
path runs (its own handlers absorb every exception); otherwise the
rule-based path runs — and if that raises, the `except` handler calls
the same rule-based path again, which raises identically, so a single
`Except` models both raises. -/
def applyAIEvaluation (backend : BackendOutcome) (days : Event → Option Int)
    (userActivity : String) (events : List Event) : Except String (List Event) :=
  match backend with
  | .available call => .ok (rankEventsByActivity call events userActivity 30)
  | .unavailable => ruleBasedEvaluation days userActivity events

/-- `UnifiedEventsService.search_events`: fan out, deduplicate, apply
the AI (or rule-based) evaluation, apply final ranking/filtering, strip
cost information. -/
def searchEvents (providers : List ProviderResult) (backend : BackendOutcome)
    (days : Event → Option Int) (userActivity : String) :
    Except String (List Event) :=
  let allEvents := fanOut providers
  let deduplicated := deduplicateEvents allEvents
  match applyAIEvaluation backend days userActivity deduplicated with
  | .error msg => .error msg
  | .ok ranked => .ok (removeCostInformation (finalRankingAndFiltering ranked))

/-! ## Provider adapters

Raw provider payloads are JSON; each field the adapters read is
modelled with the `Option` of its decoded value (`none` = key absent).
A raw coordinate value can be absent, a number, or a string whose
`float()` conversion is carried as its `Option Rat` outcome (`none` =
`ValueError`; implementing Python's float literal grammar is outside
the scope of the engine). -/

inductive RawVal where
  | missing
  | str (s : String) (parsed : Option Rat)
  | num (q : Rat)
deriving DecidableEq, Repr

/-- Python truthiness of a raw JSON value: `None` and `0` and `""` are
falsy. -/
def RawVal.truthy : RawVal → Bool
  | .missing => false
  | .str s _ => s ≠ ""
  | .num q => q ≠ 0

/-- `float(value)` on a raw value, where absence was already replaced
by the default `0` (Ticketmaster's `location_data.get('latitude', 0)`). -/
def RawVal.floatD0 : RawVal → Except Unit Rat
  | .missing => .ok 0
  | .num q => .ok q
  | .str _ parsed =>
    match parsed with
    | some q => .ok q
    | none => .error ()

/-- `float(value)` on a value already known truthy (never `missing`). -/
def RawVal.floatOf : RawVal → Except Unit Rat
  | .missing => .error ()
  | .num q => .ok q
  | .str _ parsed =>
    match parsed with
    | some q => .ok q
    | none => .error ()

/-! ### Ticketmaster (`TicketmasterService._parse_single_event`) -/

structure TMVenueRaw where
  name : Option String
  addressLine1 : Option String
  cityName : Option String
  latitude : RawVal
  longitude : RawVal
deriving DecidableEq, Repr

structure TMImageRaw where
  width : Option Int
  height : Option Int
  url : Option String
deriving DecidableEq, Repr

structure TMClassificationRaw where
  segmentName : Option String
  genreName : Option String
deriving DecidableEq, Repr

structure TMEventRaw where
  id : Option String
  name : Option String
  url : Option String
  localDate : Option String
  localTime : Option String
  venues : List TMVenueRaw
  classifications : List TMClassificationRaw
  priceRanges : List (Option Rat × Option Rat)
  images : List TMImageRaw
  info : Option String
deriving DecidableEq, Repr

/-- `img.get('width', 0) * img.get('height', 0)`. -/
def tmImageArea (i : TMImageRaw) : Int :=
  i.width.getD 0 * i.height.getD 0

/-- Python `max(images, key=area)`: the first image of maximal area
(later images replace only on strictly greater key). -/
def tmLargestImage (first : TMImageRaw) (rest : List TMImageRaw) : TMImageRaw :=
  rest.foldl (fun best i => if tmImageArea best < tmImageArea i then i else best) first

/-- `TicketmasterService._parse_single_event`.  A record with no venue
entry is rejected; a coordinate that fails `float()` conversion raises
`ValueError` (caught: rejected); a coordinate equal to 0 — including
the default for an absent key — fails `if not latitude or not
longitude` (rejected).  No range check is performed. -/
def parseSingleEvent (r : TMEventRaw) : Option Event :=
  let eventId := r.id.getD ""
  let name := r.name.getD "Unknown Event"
  let url := r.url.getD ""
  let date := r.localDate.getD ""
  let time := r.localTime.getD ""
  match r.venues with
  | [] => none
  | v :: _ =>
    let venueName := v.name.getD "Unknown Venue"
    let address := v.addressLine1.getD ""
    let city := v.cityName.getD ""
    match v.latitude.floatD0, v.longitude.floatD0 with
    | .ok lat, .ok lon =>
      if lat = 0 || lon = 0 then none
      else
        let catPair :=
          match r.classifications with
          | [] => ("miscellaneous", "")
          | c :: _ => (pyLower (c.segmentName.getD "miscellaneous"), c.genreName.getD "")
        let pricePair :=
          match r.priceRanges with
          | [] => ((none : Option Rat), (none : Option Rat))
          | p :: _ => p
        let imageUrl :=
          match r.images with
          | [] => ""
          | i :: rest => (tmLargestImage i rest).url.getD ""
        some { id := eventId, name := name, url := url, date := date,
               time := time, venue := venueName, address := address,
               city := city, latitude := lat, longitude := lon,
               category := catPair.1, subcategory := catPair.2,
               price_min := pricePair.1, price_max := pricePair.2,
               image_url := imageUrl, description := r.info.getD "" }
    | _, _ => none

/-! ### AllEvents (`AllEventsService._convert_to_event_format`) -/

structure AEVenueRaw where
  name : Option String
  address : Option String
  latitude : RawVal
  longitude : RawVal
deriving DecidableEq, Repr

/-- `event_data.get('venue', {})` when the key is absent. -/
def emptyAEVenue : AEVenueRaw :=
  { name := none, address := none, latitude := .missing, longitude := .missing }

structure AEEventRaw where
  id : Option String
  title : Option String
  url : Option String
  start_date : Option String
  start_time : Option String
  venue : Option AEVenueRaw
  category : Option String
  subcategory : Option String
  image_url : Option String
  images : Option (List (Option String))
  description : Option String
deriving DecidableEq, Repr

/-- The location dict handed to the AllEvents adapter (`latitude`,
`longitude`, `city` keys as the code reads them). -/
structure LocationDict where
  latitude : RawVal
  longitude : RawVal
  city : Option String
deriving DecidableEq, Repr

/-- `AllEventsService._convert_to_event_format`.  Missing or falsy
venue coordinates are replaced by the request location's; `float()`
failures inside the inner `try` fall back to
`float(location.get(..., 0.0))`, and only a failure of *that*
conversion reaches the outer handler and rejects the record.  Prices
are always `None`. -/
def convertToEventFormat (r : AEEventRaw) (loc : LocationDict) : Option Event :=
  let eventId := r.id.getD ""
  let name := pyStrip (r.title.getD "")
  let url := r.url.getD ""
  let startDate := r.start_date.getD ""
  let startTime := r.start_time.getD ""
  let dateStr := if startDate ≠ "" then startDate else "TBA"
  let timeStr := if startTime ≠ "" then startTime else "TBA"
  let vi := r.venue.getD emptyAEVenue
  let venueName := vi.name.getD "TBA"
  let venueAddress := vi.address.getD ""
  let vlat := vi.latitude
  let vlon := vi.longitude
  let latlon0 :=
    if ¬ vlat.truthy || ¬ vlon.truthy then (loc.latitude, loc.longitude)
    else (vlat, vlon)
  let attempt : Except Unit (Rat × Rat) := do
    let la ← if latlon0.1.truthy then latlon0.1.floatOf else .ok 0
    let lo ← if latlon0.2.truthy then latlon0.2.floatOf else .ok 0
    pure (la, lo)
  let coords : Except Unit (Rat × Rat) :=
    match attempt with
    | .ok c => .ok c
    | .error _ => do
      let la ← loc.latitude.floatD0
      let lo ← loc.longitude.floatD0
      pure (la, lo)
  match coords with
  | .error _ => none
  | .ok c =>
    let iu0 := r.image_url.getD ""
    let imageUrl :=
      match r.images with
      | some (u :: _) => u.getD iu0
      | _ => iu0
    some { id := "allevents_" ++ eventId, name := name, url := url,
           date := dateStr, time := timeStr, venue := venueName,
           address := venueAddress, city := loc.city.getD "",
           latitude := c.1, longitude := c.2,
           category := r.category.getD "Other",
           subcategory := r.subcategory.getD "",
           price_min := none, price_max := none,
           image_url := imageUrl, description := r.description.getD "" }

/-! ## Lemmas about the stable descending sort -/

theorem mem_insertDescBy {lt : α → α → Bool} {a x : α} {l : List α} :
    x ∈ insertDescBy lt a l ↔ x = a ∨ x ∈ l := by
  induction l with
  | nil => simp [insertDescBy]
  | cons b t ih =>
    by_cases h : lt b a = true
    · simp [insertDescBy, h]
    · simp only [insertDescBy, h, if_neg, Bool.not_eq_true] at *
      simp [List.mem_cons, ih]
      tauto

theorem mem_sortDescBy_aux {lt : α → α → Bool} {x : α} :
    ∀ (l acc : List α), x ∈ l.foldl (fun acc a => insertDescBy lt a acc) acc ↔
      x ∈ acc ∨ x ∈ l := by
  intro l
  induction l with
  | nil => simp
  | cons b t ih =>
    intro acc
    simp only [List.foldl_cons, ih, mem_insertDescBy, List.mem_cons]
    tauto

theorem mem_sortDescBy {lt : α → α → Bool} {x : α} {l : List α} :
    x ∈ sortDescBy lt l ↔ x ∈ l := by
  simp [sortDescBy, mem_sortDescBy_aux]

theorem length_insertDescBy {lt : α → α → Bool} {a : α} :
    ∀ l : List α, (insertDescBy lt a l).length = l.length + 1 := by
  intro l
  induction l with
  | nil => rfl
  | cons b t ih =>
    by_cases h : lt b a = true <;> simp [insertDescBy, h, ih]

theorem length_sortDescBy_aux {lt : α → α → Bool} :
    ∀ (l acc : List α),
      (l.foldl (fun acc a => insertDescBy lt a acc) acc).length =
        acc.length + l.length := by
  intro l
  induction l with
  | nil => simp
  | cons b t ih =>
    intro acc
    simp only [List.foldl_cons, ih, length_insertDescBy, List.length_cons]
    omega

theorem length_sortDescBy {lt : α → α → Bool} {l : List α} :
    (sortDescBy lt l).length = l.length := by
  simp [sortDescBy, length_sortDescBy_aux]

theorem pairwise_insertDescBy {lt : α → α → Bool}
    (hasym : ∀ a b, lt a b = true → lt b a = false)
    (htrans : ∀ a b c, lt a b = true → lt b c = true → lt a c = true)
    {a : α} {l : List α} (h : l.Pairwise (fun x y => lt x y = false)) :
    (insertDescBy lt a l).Pairwise (fun x y => lt x y = false) := by
  induction l with
  | nil => simp [insertDescBy]
  | cons b t ih =>
    rcases h with _ | ⟨hb, ht⟩
    by_cases hba : lt b a = true
    · rw [insertDescBy, if_pos hba]
      refine List.Pairwise.cons ?_ (List.Pairwise.cons hb ht)
      intro x hx
      rcases List.mem_cons.mp hx with rfl | hxt
      · exact hasym _ _ hba
      · cases hax : lt a x with
        | false => rfl
        | true => exact absurd (htrans _ _ _ hba hax) (by simp [hb x hxt])
    · rw [insertDescBy, if_neg hba]
      refine List.Pairwise.cons ?_ (ih ht)
      intro x hx
      rcases mem_insertDescBy.mp hx with rfl | hxt
      · simpa using hba
      · exact hb x hxt

theorem pairwise_sortDescBy_aux {lt : α → α → Bool}
    (hasym : ∀ a b, lt a b = true → lt b a = false)
    (htrans : ∀ a b c, lt a b = true → lt b c = true → lt a c = true) :
    ∀ (l acc : List α), acc.Pairwise (fun x y => lt x y = false) →
      (l.foldl (fun acc a => insertDescBy lt a acc) acc).Pairwise
        (fun x y => lt x y = false) := by
  intro l
  induction l with
  | nil => intro acc h; simpa using h
  | cons b t ih =>
    intro acc h
    exact ih _ (pairwise_insertDescBy hasym htrans h)

theorem pairwise_sortDescBy {lt : α → α → Bool}
    (hasym : ∀ a b, lt a b = true → lt b a = false)
    (htrans : ∀ a b c, lt a b = true → lt b c = true → lt a c = true)
    (l : List α) :
    (sortDescBy lt l).Pairwise (fun x y => lt x y = false) :=
  pairwise_sortDescBy_aux hasym htrans l [] List.Pairwise.nil

theorem lexLt_iff {a b : Rat × Rat} :
    lexLt a b = true ↔ a.1 < b.1 ∨ (a.1 = b.1 ∧ a.2 < b.2) := by
  simp [lexLt]

theorem lexLt_asymm : ∀ a b : Rat × Rat, lexLt a b = true → lexLt b a = false := by
  intro a b h
  rw [← Bool.not_eq_true, lexLt_iff]
  push_neg
  rcases lexLt_iff.mp h with h1 | ⟨h1, h2⟩
  · refine ⟨le_of_lt h1, fun he => ?_⟩
    rw [he] at h1
    exact absurd h1 (lt_irrefl _)
  · exact ⟨le_of_eq h1, fun _ => le_of_lt h2⟩

theorem lexLt_trans : ∀ a b c : Rat × Rat,
    lexLt a b = true → lexLt b c = true → lexLt a c = true := by
  intro a b c hab hbc
  rw [lexLt_iff] at *
  rcases hab with h1 | ⟨h1, h2⟩ <;> rcases hbc with g1 | ⟨g1, g2⟩
  · exact Or.inl (lt_trans h1 g1)
  · exact Or.inl (g1 ▸ h1)
  · exact Or.inl (h1 ▸ g1)
  · exact Or.inr ⟨h1.trans g1, lt_trans h2 g2⟩

/-- Asymmetry of the plain score comparison used by the OpenAI-side sorts. -/
theorem scoreLt_asymm : ∀ a b : Event,
    decide (a.relevance_score < b.relevance_score) = true →
      decide (b.relevance_score < a.relevance_score) = false := by
  intro a b h
  simp only [decide_eq_true_eq] at h
  simpa using le_of_lt h

theorem scoreLt_trans : ∀ a b c : Event,
    decide (a.relevance_score < b.relevance_score) = true →
      decide (b.relevance_score < c.relevance_score) = true →
      decide (a.relevance_score < c.relevance_score) = true := by
  intro a b c h g
  simp only [decide_eq_true_eq] at *
  exact lt_trans h g

/-! ## Lemmas about the fan-out stage -/

theorem foldl_append_eq_flatten :
    ∀ (ls : List (List Event)) (acc : List Event),
      ls.foldl (· ++ ·) acc = acc ++ ls.flatten := by
  intro ls
  induction ls with
  | nil => simp
  | cons l t ih => intro acc; simp [ih, List.append_assoc]

theorem fanOut_eq_flatten (providers : List ProviderResult) :
    fanOut providers = (providers.map searchSourceSafely).flatten := by
  simp [fanOut, foldl_append_eq_flatten]

/-! ## Lemmas about deduplication -/

theorem seenLookup_nil (k : String) : seenLookup [] k = none := rfl

theorem seenLookup_cons (k1 : String) (v : Event) (seen : List (String × Event))
    (k : String) :
    seenLookup ((k1, v) :: seen) k = if k1 = k then some v else seenLookup seen k := by
  by_cases h : k1 = k <;> simp [seenLookup, List.find?_cons, h]

theorem seenLookup_update_self {seen : List (String × Event)} {k : String}
    {v : Event} (e : Event) (h : seenLookup seen k = some v) :
    seenLookup (seenUpdate seen k e) k = some e := by
  induction seen with
  | nil => simp [seenLookup] at h
  | cons p t ih =>
    obtain ⟨k1, v1⟩ := p
    by_cases hk : k1 = k
    · subst hk
      simp [seenUpdate, seenLookup, List.find?_cons]
    · rw [seenLookup_cons] at h
      rw [if_neg hk] at h
      have : seenUpdate ((k1, v1) :: t) k e = (k1, v1) :: seenUpdate t k e := by
        simp [seenUpdate, hk]
      rw [this, seenLookup_cons, if_neg hk]
      exact ih h

theorem seenLookup_update_other {seen : List (String × Event)} {k k' : String}
    (e : Event) (h : k' ≠ k) :
    seenLookup (seenUpdate seen k e) k' = seenLookup seen k' := by
  induction seen with
  | nil => rfl
  | cons p t ih =>
    obtain ⟨k1, v1⟩ := p
    by_cases hk : k1 = k
    · subst hk
      have : seenUpdate ((k1, v1) :: t) k1 e = (k1, e) :: seenUpdate t k1 e := by
        simp [seenUpdate]
      rw [this, seenLookup_cons, seenLookup_cons, if_neg (fun hh => h hh.symm),
        if_neg (fun hh => h hh.symm)]
      exact ih
    · have : seenUpdate ((k1, v1) :: t) k e = (k1, v1) :: seenUpdate t k e := by
        simp [seenUpdate, hk]
      rw [this, seenLookup_cons, seenLookup_cons]
      by_cases hk1 : k1 = k'
      · simp [hk1]
      · rw [if_neg hk1, if_neg hk1]
        exact ih

/-- Processing events whose keys are fresh (absent from `seen`) and
pairwise distinct just appends them in order. -/
theorem dedupAux_of_fresh :
    ∀ (l : List Event) (seen : List (String × Event)) (acc : List Event),
      (∀ x ∈ l, seenLookup seen (createEventKey x) = none) →
      l.Pairwise (fun a b => createEventKey a ≠ createEventKey b) →
      dedupAux seen acc l = acc ++ l := by
  intro l
  induction l with
  | nil => intro seen acc _ _; simp [dedupAux]
  | cons e rest ih =>
    intro seen acc hfresh hpw
    rcases hpw with _ | ⟨hhead, htail⟩
    have he : seenLookup seen (createEventKey e) = none :=
      hfresh e (List.mem_cons_self e rest)
    rw [dedupAux]
    simp only [he]
    rw [ih _ _ ?_ htail]
    · simp
    · intro x hx
      rw [seenLookup_cons, if_neg (hhead x hx)]
      exact hfresh x (List.mem_cons_of_mem e hx)

/-- The dedup loop's invariant: the accumulated output has pairwise
distinct keys, every accumulated event is registered in `seen`, and
everything `seen` maps to is in the output under its own key.  The
final output therefore has pairwise distinct keys. -/
theorem dedupAux_pairwise :
    ∀ (l : List Event) (seen : List (String × Event)) (acc : List Event),
      acc.Pairwise (fun a b => createEventKey a ≠ createEventKey b) →
      (∀ x ∈ acc, ∃ v, seenLookup seen (createEventKey x) = some v) →
      (∀ k v, seenLookup seen k = some v → v ∈ acc ∧ createEventKey v = k) →
      (dedupAux seen acc l).Pairwise
        (fun a b => createEventKey a ≠ createEventKey b) := by
  intro l
  induction l with
  | nil => intro seen acc h1 _ _; simpa [dedupAux] using h1
  | cons e rest ih =>
    intro seen acc h1 h2 h3
    have hsym : Symmetric (fun a b : Event => createEventKey a ≠ createEventKey b) :=
      fun x y hxy => fun hh => hxy hh.symm
    cases hl : seenLookup seen (createEventKey e) with
    | none =>
      rw [dedupAux]
      simp only [hl]
      apply ih
      · rw [List.pairwise_append]
        refine ⟨h1, List.pairwise_singleton _ _, ?_⟩
        intro a ha b hb
        rw [List.mem_singleton] at hb
        subst hb
        intro hkey
        obtain ⟨v, hv⟩ := h2 a ha
        rw [hkey, hl] at hv
        exact Option.noConfusion hv
      · intro x hx
        rcases List.mem_append.mp hx with hx | hx
        · by_cases hk : createEventKey e = createEventKey x
          · exact ⟨e, by rw [seenLookup_cons, if_pos hk]⟩
          · obtain ⟨v, hv⟩ := h2 x hx
            exact ⟨v, by rw [seenLookup_cons, if_neg hk]; exact hv⟩
        · rw [List.mem_singleton] at hx
          subst hx
          exact ⟨x, by rw [seenLookup_cons, if_pos rfl]⟩
      · intro k' v hv
        rw [seenLookup_cons] at hv
        by_cases hk : createEventKey e = k'
        · rw [if_pos hk] at hv
          cases hv
          exact ⟨List.mem_append_right _ (List.mem_singleton_self _), hk⟩
        · rw [if_neg hk] at hv
          obtain ⟨hmem, hkey⟩ := h3 k' v hv
          exact ⟨List.mem_append_left _ hmem, hkey⟩
    | some existing =>
      obtain ⟨hexmem, hexkey⟩ := h3 _ _ hl
      have hnodup : acc.Nodup :=
        h1.imp (fun hk => fun heq => hk (by rw [heq]))
      have herase_key : ∀ a ∈ acc.erase existing,
          createEventKey a ≠ createEventKey e := by
        intro a ha
        obtain ⟨hane, hamem⟩ := (hnodup.mem_erase_iff).mp ha
        intro hkey
        exact (h1.forall hsym hamem hexmem hane) (by rw [hkey, hexkey])
      by_cases hrep : shouldReplaceEvent existing e = true
      · rw [dedupAux]
        simp only [hl, hrep, if_true]
        apply ih
        · rw [List.pairwise_append]
          refine ⟨List.Pairwise.sublist (List.erase_sublist existing acc) h1,
            List.pairwise_singleton _ _, ?_⟩
          intro a ha b hb
          rw [List.mem_singleton] at hb
          subst hb
          exact herase_key a ha
        · intro x hx
          rcases List.mem_append.mp hx with hx | hx
          · obtain ⟨v, hv⟩ := h2 x (List.mem_of_mem_erase hx)
            refine ⟨v, ?_⟩
            rw [seenLookup_update_other e ?_]
            · exact hv
            · rw [← hexkey]
              exact fun hh => herase_key x hx (by rw [hh, hexkey])
          · rw [List.mem_singleton] at hx
            subst hx
            exact ⟨x, seenLookup_update_self x hl⟩
        · intro k' v hv
          by_cases hk : k' = createEventKey e
          · subst hk
            rw [seenLookup_update_self e hl] at hv
            cases hv
            exact ⟨List.mem_append_right _ (List.mem_singleton_self _), rfl⟩
          · rw [seenLookup_update_other e hk] at hv
            obtain ⟨hmem, hkey⟩ := h3 k' v hv
            refine ⟨List.mem_append_left _ ?_, hkey⟩
            rw [hnodup.mem_erase_iff]
            refine ⟨?_, hmem⟩
            intro hh
            subst hh
            exact hk (by rw [← hkey, hexkey])
      · rw [dedupAux]
        simp only [hl, hrep, if_false]
        exact ih seen acc h1 h2 h3

/-- The dedup output always has pairwise distinct identity keys. -/
theorem keyDistinct_deduplicateEvents (l : List Event) :
    (deduplicateEvents l).Pairwise
      (fun a b => createEventKey a ≠ createEventKey b) := by
  apply dedupAux_pairwise
  · exact List.Pairwise.nil
  · intro x hx; exact absurd hx (List.not_mem_nil x)
  · intro k v hv; exact Option.noConfusion hv

/-! ## Lemmas about the filter stage and the parse loop -/

theorem filterStage_of_ge {events : List Event}
    (h : 5 ≤ (events.filter passesStrictFilter).length) :
    filterStage events = events.filter passesStrictFilter := by
  simp only [filterStage]
  rw [if_neg]
  simp only [Bool.and_eq_true, decide_eq_true_eq, not_and]
  intro hlt
  exact absurd hlt (not_lt.mpr h)

theorem filterStage_of_lt {events : List Event}
    (h : (events.filter passesStrictFilter).length < 5) (hne : events ≠ []) :
    filterStage events =
      events.filter (fun e => decide ((1/10 : Rat) < e.relevance_score)) := by
  simp only [filterStage]
  rw [if_pos]
  simp only [Bool.and_eq_true, decide_eq_true_eq, Bool.not_eq_true']
  exact ⟨h, by simpa [List.isEmpty_iff] using hne⟩

theorem filterStage_subset (events : List Event) :
    filterStage events ⊆ events := by
  simp only [filterStage]
  split
  · intro x hx; exact (List.mem_filter.mp hx).1
  · intro x hx; exact (List.mem_filter.mp hx).1

theorem parseStep_length (originalEvents acc : List Event) (r : RankingEntry) :
    (parseStep originalEvents acc r).length ≤ acc.length + 1 := by
  simp only [parseStep]
  split
  · split <;> simp
  · simp

theorem parseStep_mem {originalEvents acc : List Event} {r : RankingEntry}
    {x : Event} (h : x ∈ parseStep originalEvents acc r) :
    x ∈ acc ∨ ∃ e, x = attachRanking e r := by
  simp only [parseStep] at h
  split at h
  · split at h
    · rcases List.mem_append.mp h with h | h
      · exact Or.inl h
      · rw [List.mem_singleton] at h
        exact Or.inr ⟨_, h⟩
    · exact Or.inl h
  · exact Or.inl h

theorem parseFold_length (originalEvents : List Event) :
    ∀ (rankings : List RankingEntry) (acc : List Event),
      (rankings.foldl (parseStep originalEvents) acc).length ≤
        acc.length + rankings.length := by
  intro rankings
  induction rankings with
  | nil => simp
  | cons r t ih =>
    intro acc
    calc (List.foldl (parseStep originalEvents) (parseStep originalEvents acc r) t).length
        ≤ (parseStep originalEvents acc r).length + t.length := ih _
      _ ≤ acc.length + 1 + t.length := by
          have := parseStep_length originalEvents acc r
          omega
      _ = acc.length + (r :: t).length := by simp [List.length_cons]; omega

theorem parseFold_mem (originalEvents : List Event) :
    ∀ (rankings : List RankingEntry) (acc : List Event) (x : Event),
      x ∈ rankings.foldl (parseStep originalEvents) acc →
      x ∈ acc ∨ ∃ r ∈ rankings, ∃ e, x = attachRanking e r := by
  intro rankings
  induction rankings with
  | nil => intro acc x h; exact Or.inl h
  | cons r t ih =>
    intro acc x h
    rcases ih _ x h with h | ⟨r', hr', e, he⟩
    · rcases parseStep_mem h with h | ⟨e, he⟩
      · exact Or.inl h
      · exact Or.inr ⟨r, List.mem_cons_self r t, e, he⟩
    · exact Or.inr ⟨r', List.mem_cons_of_mem r hr', e, he⟩

/-! ## Concrete fixtures for witnesses and counterexamples -/

/-- A Ticketmaster-sourced record of the Jazz Fest (first seen, less
complete: no description). -/
def jazzTM : Event :=
  { id := "ticketmaster_1", name := "The Jazz Fest", url := "", date := "2025-07-01",
    time := "TBA", venue := "Blue Note Hall", address := "", city := "Richmond",
    latitude := 37, longitude := -77, category := "music" }

/-- An AllEvents-sourced record of the same event (more complete: has a
description and address, different surface name). -/
def jazzAE : Event :=
  { id := "allevents_2", name := "Jazz Fest", url := "https://x", date := "2025-07-01",
    time := "TBA", venue := "Blue Note Hall", address := "12 Main St",
    city := "Richmond", latitude := 37, longitude := -77, category := "music",
    description := "an evening of jazz" }

/-- An unrelated event with a distinct identity key. -/
def rockShow : Event :=
  { id := "ticketmaster_3", name := "Rock Show", url := "", date := "2025-08-02",
    time := "19:00", venue := "Arena", address := "", city := "Richmond",
    latitude := 37, longitude := -77, category := "music" }

/-! ## C5 — dedup collapses article-variant names, keeping the more
complete record -/

/-- C5: if two events' names normalize identically (differing only by
articles/punctuation/whitespace) and they share the venue and date,
deduplication collapses them to exactly one record: the second exactly
when its completeness score is strictly higher, otherwise the
first-seen record. -/
theorem c5_dedup_collapse (e1 e2 : Event)
    (hname : normalizeEventName (pyStrip (pyLower e1.name)) =
      normalizeEventName (pyStrip (pyLower e2.name)))
    (hvenue : pyStrip (pyLower e1.venue) = pyStrip (pyLower e2.venue))
    (hdate : pyStrip e1.date = pyStrip e2.date) :
    deduplicateEvents [e1, e2] =
      (if calculateCompletenessScore e1 < calculateCompletenessScore e2
       then [e2] else [e1]) ∧
    (deduplicateEvents [e1, e2]).length = 1 := by
  have hkey : createEventKey e2 = createEventKey e1 := by
    unfold createEventKey
    rw [hname, hvenue, hdate]
  have hmain : deduplicateEvents [e1, e2] =
      (if calculateCompletenessScore e1 < calculateCompletenessScore e2
       then [e2] else [e1]) := by
    by_cases hrep : calculateCompletenessScore e1 < calculateCompletenessScore e2 <;>
      simp [deduplicateEvents, dedupAux, seenLookup_nil, hkey, seenLookup_cons,
        shouldReplaceEvent, hrep, List.erase_cons_head]
  refine ⟨hmain, ?_⟩
  rw [hmain]
  split <;> rfl

/-- C5 witness: "The Jazz Fest" and "Jazz Fest" at the same venue and
date collapse to the more complete AllEvents record. -/
theorem c5_witness :
    (deduplicateEvents [jazzTM, jazzAE] =
      (if calculateCompletenessScore jazzTM < calculateCompletenessScore jazzAE
       then [jazzAE] else [jazzTM])) ∧
    (deduplicateEvents [jazzTM, jazzAE]).length = 1 :=
  c5_dedup_collapse jazzTM jazzAE (by decide) (by decide) (by decide)

/-! ## C6 — deduplication is idempotent -/

/-- C6: on a list whose identity keys are pairwise distinct,
deduplication returns exactly the input (same elements, same order);
consequently deduplication is idempotent. -/
theorem c6_dedup_idempotent :
    (∀ l : List Event,
      l.Pairwise (fun a b => createEventKey a ≠ createEventKey b) →
      deduplicateEvents l = l) ∧
    (∀ l : List Event,
      deduplicateEvents (deduplicateEvents l) = deduplicateEvents l) := by
  have h1 : ∀ l : List Event,
      l.Pairwise (fun a b => createEventKey a ≠ createEventKey b) →
      deduplicateEvents l = l := by
    intro l hpw
    have := dedupAux_of_fresh l [] [] (fun x _ => rfl) hpw
    simpa [deduplicateEvents] using this
  exact ⟨h1, fun l => h1 _ (keyDistinct_deduplicateEvents l)⟩

/-- C6 witness: a two-element list with distinct identity keys is
returned unchanged. -/
theorem c6_witness : deduplicateEvents [jazzTM, rockShow] = [jazzTM, rockShow] :=
  c6_dedup_idempotent.1 [jazzTM, rockShow] (by decide)

/-! ## C1 — the rule-based path raises on every non-empty input

The loop body of `_rule_based_evaluation` calls the undefined method
`_calculate_prompt_relevance` (and, unconditionally,
`_calculate_location_proximity`), so the path raises `AttributeError`
on the very first event instead of annotating the events. -/

/-- C1: for every non-empty event list and non-empty activity text, the
rule-based evaluation raises (an `AttributeError` from the undefined
`_calculate_prompt_relevance`) rather than returning annotated events —
the code contradicts the claim that this path never crashes. -/
theorem c1_rule_based_raises (days : Event → Option Int) (userActivity : String)
    (events : List Event) (hne : events ≠ []) (hua : userActivity ≠ "") :
    ruleBasedEvaluation days userActivity events =
      .error "AttributeError: _calculate_prompt_relevance" := by
  obtain ⟨e, rest, rfl⟩ := List.exists_cons_of_ne_nil hne
  have hscore : scoreEventRuleBased days userActivity e =
      .error "AttributeError: _calculate_prompt_relevance" := by
    simp [scoreEventRuleBased, hua, calcPromptRelevance, Bind.bind, Except.bind]
  simp [ruleBasedEvaluation, List.mapM, List.mapM.loop, hscore, Bind.bind,
    Except.bind]

/-- C1 witness: a single concrete event with a concrete activity text. -/
theorem c1_witness :
    ([jazzTM] ≠ ([] : List Event) ∧ "comedy show" ≠ "") ∧
    ruleBasedEvaluation (fun _ => none) "comedy show" [jazzTM] =
      .error "AttributeError: _calculate_prompt_relevance" :=
  ⟨⟨by decide, by decide⟩,
    c1_rule_based_raises (fun _ => none) "comedy show" [jazzTM]
      (by decide) (by decide)⟩

/-! ## C2 — what order the returned list actually has -/

/-- First ranked event of the C2 counterexample: middling overall score
but high prompt relevance. -/
def promptHeavy : Event :=
  { jazzTM with relevance_score := 1/2,
                personalization_factors := [("prompt_relevance", 9/10)] }

/-- Second ranked event of the C2 counterexample: high overall score
but low prompt relevance. -/
def scoreHeavy : Event :=
  { rockShow with relevance_score := 9/10,
                  personalization_factors := [("prompt_relevance", 1/10)] }

/-- C2 counterexample: the returned list is **not** sorted descending
by `relevance_score` — the event with prompt relevance 0.9 but overall
score 0.5 precedes the event with overall score 0.9. -/
theorem c2_counterexample :
    ¬ (finalRankingAndFiltering [promptHeavy, scoreHeavy]).Pairwise
      (fun a b => b.relevance_score ≤ a.relevance_score) := by
  decide

/-- C2 amended: the returned list is sorted descending by the
lexicographic key `(prompt_relevance, relevance_score)` — not by
`relevance_score` alone — and truncation to `final_event_limit`
happens after sorting, so no kept event has a lexicographically
smaller key than any truncated event. -/
theorem c2_sorted_and_truncated_after (events : List Event) :
    (finalRankingAndFiltering events).Pairwise
      (fun a b => lexLt (finalSortKey a) (finalSortKey b) = false) ∧
    ((finalRankingAndFiltering events).all (fun a =>
      ((sortDescBy (fun a b => lexLt (finalSortKey a) (finalSortKey b))
          (filterStage events)).drop finalEventLimit).all
        (fun b => !lexLt (finalSortKey a) (finalSortKey b))) = true) := by
  have hasym : ∀ a b : Event,
      lexLt (finalSortKey a) (finalSortKey b) = true →
      lexLt (finalSortKey b) (finalSortKey a) = false :=
    fun a b h => lexLt_asymm _ _ h
  have htrans : ∀ a b c : Event,
      lexLt (finalSortKey a) (finalSortKey b) = true →
      lexLt (finalSortKey b) (finalSortKey c) = true →
      lexLt (finalSortKey a) (finalSortKey c) = true :=
    fun a b c hab hbc => lexLt_trans _ _ _ hab hbc
  have hpair := pairwise_sortDescBy hasym htrans (filterStage events)
  have htake : finalRankingAndFiltering events =
      (sortDescBy (fun a b => lexLt (finalSortKey a) (finalSortKey b))
        (filterStage events)).take finalEventLimit := rfl
  constructor
  · rw [htake]
    exact List.Pairwise.sublist (List.take_sublist _ _) hpair
  · rw [List.all_eq_true]
    intro a ha
    rw [List.all_eq_true]
    intro b hb
    have hsplit := List.pairwise_append.mp
      (show ((sortDescBy (fun a b => lexLt (finalSortKey a) (finalSortKey b))
          (filterStage events)).take finalEventLimit ++
        (sortDescBy (fun a b => lexLt (finalSortKey a) (finalSortKey b))
          (filterStage events)).drop finalEventLimit).Pairwise
          (fun x y => lexLt (finalSortKey x) (finalSortKey y) = false) by
        rw [List.take_append_drop]
        exact hpair)
    have := hsplit.2.2 a (htake ▸ ha) b hb
    simp [this]

/-! ## C3 — the filter boundary is exclusive, with relaxation below 5 -/

/-- C3 amended: membership in the filtering step is characterized by
the strict comparisons of the code: with at least 5 strict survivors,
an event is kept iff `relevance_score > 0.2` or `prompt_relevance >
0.3` (so a score exactly at the 0.2 threshold is dropped — the
boundary is exclusive, not inclusive); with fewer than 5 survivors and
a non-empty input the filter relaxes to the strict `relevance_score >
0.1`. -/
theorem c3_filter_boundary (events : List Event) (e : Event) :
    (5 ≤ (events.filter passesStrictFilter).length →
      (e ∈ filterStage events ↔
        e ∈ events ∧ ((2/10 : Rat) < e.relevance_score ∨
          (3/10 : Rat) < pfGet e.personalization_factors "prompt_relevance"))) ∧
    ((events.filter passesStrictFilter).length < 5 → events ≠ [] →
      (e ∈ filterStage events ↔
        e ∈ events ∧ (1/10 : Rat) < e.relevance_score)) := by
  constructor
  · intro h5
    rw [filterStage_of_ge h5, List.mem_filter]
    simp [passesStrictFilter]
  · intro hlt hne
    rw [filterStage_of_lt hlt hne, List.mem_filter]
    simp

/-- An event scored exactly at the 0.2 relevance threshold with no
prompt relevance. -/
def boundaryEvent : Event :=
  { jazzTM with relevance_score := 2/10,
                personalization_factors := [("prompt_relevance", 0)] }

/-- A clearly passing event (overall score 0.9). -/
def strongEvent : Event :=
  { rockShow with relevance_score := 9/10,
                  personalization_factors := [("prompt_relevance", 0)] }

/-- Input on which the strict filter keeps 5 events, so no relaxation. -/
def boundaryList : List Event :=
  boundaryEvent :: List.replicate 5 strongEvent

/-- Input on which the strict filter keeps fewer than 5 events, so the
threshold relaxes to 0.1. -/
def relaxList : List Event := [boundaryEvent, strongEvent]

/-- C3 counterexample: an event whose relevance score equals the
minimum threshold (0.2) is **dropped**, not retained, even though
enough other events pass for no relaxation to occur — the boundary is
exclusive, contradicting the claimed inclusive boundary. -/
theorem c3_counterexample :
    boundaryEvent ∈ boundaryList ∧
    boundaryEvent.relevance_score = 2/10 ∧
    boundaryEvent ∉ filterStage boundaryList := by
  decide

/-- C3 witness: the boundary event is dropped under the strict filter
(5 survivors) and kept once the relaxed 0.1 threshold applies. -/
theorem c3_witness :
    boundaryEvent ∉ filterStage boundaryList ∧
    boundaryEvent ∈ filterStage relaxList := by
  constructor
  · intro hmem
    have h := ((c3_filter_boundary boundaryList boundaryEvent).1 (by decide)).mp hmem
    exact absurd h.2 (by decide)
  · exact ((c3_filter_boundary relaxList boundaryEvent).2 (by decide)
      (by decide)).mpr ⟨by decide, by decide⟩

/-! ## C4 — malformed responses fall back wholesale, partial responses drop -/

/-- C4 amended: a malformed (unparsable) backend response re-ranks the
entire submitted list via the fallback — every submitted event appears,
scored 0.5, none dropped; but a *well-formed* response yields at most
one ranked event per response entry, so a response covering only part
of the submitted events leaves the uncovered events out of the result. -/
theorem c4_malformed_fallback :
    (∀ events : List Event,
      parseRankingResponse .malformed events =
        events.map (fun e =>
          { e with relevance_score := 1/2,
                   recommendation_reason := "Found near your location" })) ∧
    (∀ (events : List Event) (rankings : List RankingEntry),
      (parseRankingResponse (.parsed rankings) events).length ≤ rankings.length) := by
  constructor
  · intro events
    show fallbackRanking events "" events.length = _
    rw [fallbackRanking, if_pos (show pyStrip "" = "" from rfl), neutralRanking,
      ← List.length_map events (fun e =>
        { e with relevance_score := (1/2 : Rat),
                 recommendation_reason := "Found near your location" })]
    exact List.take_length _
  · intro events rankings
    simp only [parseRankingResponse]
    rw [length_sortDescBy]
    simpa using parseFold_length events rankings []

/-- A well-formed response entry covering only the first of two
submitted events. -/
def soloEntry : RankingEntry :=
  { event_id := some 0, relevance_score := some (mkRat 9 10), reason := some "top pick" }

/-- C4 counterexample: a well-formed but partial response (one entry
for two submitted events) does **not** fall back — the uncovered second
event is absent from the ranked result. -/
theorem c4_counterexample :
    (rankEventsByActivity (.response (.parsed [soloEntry])) [jazzTM, rockShow]
        "music" 30).map Event.id = ["ticketmaster_1"] ∧
    rockShow ∈ [jazzTM, rockShow] ∧
    rockShow.id ∉ (rankEventsByActivity (.response (.parsed [soloEntry]))
        [jazzTM, rockShow] "music" 30).map Event.id := by
  decide

/-! ## C7 — provider failures are isolated; total failure yields `[]` -/

/-- C7: a provider whose fetch raised contributes zero events while the
other providers' events are kept in order, and when every provider
fails or returns nothing the engine returns `.ok []` — an empty list,
not an error — whatever the ranking backend does. -/
theorem c7_fanout_isolation :
    (∀ (rs1 rs2 : List ProviderResult) (msg : String),
      fanOut (rs1 ++ .error msg :: rs2) = fanOut rs1 ++ fanOut rs2) ∧
    (∀ (providers : List ProviderResult) (backend : BackendOutcome)
        (days : Event → Option Int) (userActivity : String),
      (∀ r ∈ providers, searchSourceSafely r = []) →
      searchEvents providers backend days userActivity = .ok []) := by
  constructor
  · intro rs1 rs2 msg
    rw [fanOut_eq_flatten, fanOut_eq_flatten, fanOut_eq_flatten]
    simp [searchSourceSafely]
  · intro providers backend days userActivity hall
    have hempty : fanOut providers = [] := by
      rw [fanOut_eq_flatten, List.flatten_eq_nil_iff]
      intro l hl
      obtain ⟨r, hr, rfl⟩ := List.mem_map.mp hl
      exact hall r hr
    simp only [searchEvents, hempty]
    cases backend with
    | available call => rfl
    | unavailable => rfl

/-- C7 witness: one timed-out provider and one empty provider give an
empty result, not an error, on the rule-based (backend-unavailable)
path. -/
theorem c7_witness :
    searchEvents [.error "timeout", .ok []] .unavailable (fun _ => none)
      "live music" = .ok [] :=
  c7_fanout_isolation.2 [.error "timeout", .ok []] .unavailable (fun _ => none)
    "live music" (by decide)

/-! ## C8 — what the adapters actually do with coordinates and venues -/

/-- C8 amended: the Ticketmaster adapter rejects a record whose
coordinates are missing, unparsable or zero — every event it emits has
nonzero (though not range-checked) coordinates — and rejects a record
with no venue entry at all (only a missing venue *name* merely degrades
completeness); the AllEvents adapter never rejects for missing
coordinates, substituting the request location's coordinates instead. -/
theorem c8_adapter_coordinates :
    (∀ (r : TMEventRaw) (e : Event),
      parseSingleEvent r = some e → e.latitude ≠ 0 ∧ e.longitude ≠ 0) ∧
    (∀ r : TMEventRaw, r.venues = [] → parseSingleEvent r = none) ∧
    (∀ (r : AEEventRaw) (loc : LocationDict) (la lo : Rat),
      r.venue = none → loc.latitude = .num la → loc.longitude = .num lo →
      ∃ e, convertToEventFormat r loc = some e ∧
        e.latitude = la ∧ e.longitude = lo) := by
  refine ⟨?_, ?_, ?_⟩
  · intro r e h
    simp only [parseSingleEvent] at h
    split at h
    · exact Option.noConfusion h
    · split at h
      · split at h
        · exact Option.noConfusion h
        · rename_i hcond
          simp only [Bool.or_eq_true, decide_eq_true_eq, not_or] at hcond
          cases h
          exact hcond
      · exact Option.noConfusion h
  · intro r h
    simp [parseSingleEvent, h]
  · intro r loc la lo hv hla hlo
    by_cases h1 : la = 0 <;> by_cases h2 : lo = 0 <;>
      simp [convertToEventFormat, hv, hla, hlo, emptyAEVenue, RawVal.truthy,
        RawVal.floatOf, RawVal.floatD0, Bind.bind, Except.bind, Pure.pure,
        Except.pure, h1, h2]

/-- A Ticketmaster raw record with a venue carrying valid string
coordinates. -/
def tmSampleRaw : TMEventRaw :=
  { id := some "t1", name := some "Show", url := none, localDate := none,
    localTime := none,
    venues := [{ name := none, addressLine1 := none, cityName := none,
                 latitude := .str "39.5" (some (mkRat 79 2)),
                 longitude := .num (-77) }],
    classifications := [], priceRanges := [], images := [], info := none }

/-- The event `tmSampleRaw` parses to. -/
def tmSampleEvent : Event :=
  { id := "t1", name := "Show", url := "", date := "", time := "",
    venue := "Unknown Venue", address := "", city := "",
    latitude := mkRat 79 2, longitude := -77, category := "miscellaneous" }

/-- A Ticketmaster raw record with no venue entry. -/
def tmNoVenueRaw : TMEventRaw :=
  { id := some "t2", name := some "Mystery", url := none, localDate := none,
    localTime := none, venues := [], classifications := [], priceRanges := [],
    images := [], info := none }

/-- An AllEvents raw record with no venue key at all. -/
def aeNoVenueRaw : AEEventRaw :=
  { id := some "9", title := some " Fest ", url := none, start_date := none,
    start_time := none, venue := none, category := none, subcategory := none,
    image_url := none, images := none, description := none }

/-- An AllEvents raw record whose venue exists but has no coordinates. -/
def aeNoCoordRaw : AEEventRaw :=
  { id := some "11", title := some "Street Fair", url := none,
    start_date := some "2025-09-01", start_time := none,
    venue := some { name := some "Main Plaza", address := none,
                    latitude := .missing, longitude := .missing },
    category := none, subcategory := none, image_url := none, images := none,
    description := none }

/-- The request location handed to the AllEvents adapter. -/
def aeLoc : LocationDict :=
  { latitude := .num 37, longitude := .num (-122), city := some "SF" }

/-- C8 witness: the three parts of the amended claim at concrete
records. -/
theorem c8_witness :
    (tmSampleEvent.latitude ≠ 0 ∧ tmSampleEvent.longitude ≠ 0) ∧
    parseSingleEvent tmNoVenueRaw = none ∧
    (∃ e, convertToEventFormat aeNoVenueRaw aeLoc = some e ∧
      e.latitude = 37 ∧ e.longitude = -122) :=
  ⟨c8_adapter_coordinates.1 tmSampleRaw tmSampleEvent (by decide),
   c8_adapter_coordinates.2.1 tmNoVenueRaw (by decide),
   c8_adapter_coordinates.2.2 aeNoVenueRaw aeLoc 37 (-122) rfl rfl rfl⟩

/-- C8 counterexample: an AllEvents record whose venue coordinates are
missing is **not** rejected — the adapter emits it with the request
location's coordinates. -/
theorem c8_counterexample :
    (aeNoCoordRaw.venue.getD emptyAEVenue).latitude = RawVal.missing ∧
    (aeNoCoordRaw.venue.getD emptyAEVenue).longitude = RawVal.missing ∧
    (convertToEventFormat aeNoCoordRaw aeLoc).isSome = true := by
  decide

/-! ## C9 — relevance scores are only in [0,1] when the backend behaves -/

/-- C9 amended: scores on the model-assisted path are attached verbatim
from the backend (default 0.5), so every returned score lies in [0,1]
*provided* every backend-supplied score does; the text-matching
fallback always scores within [0,1]; and the final
ranking/filtering/cost-stripping stages preserve any such bound.  (The
parser performs no clamping, so an out-of-range backend score
propagates to the engine's output — see the counterexample.) -/
theorem c9_score_range :
    (∀ (rankings : List RankingEntry) (events : List Event),
      (∀ r ∈ rankings, 0 ≤ r.relevance_score.getD (1/2) ∧
        r.relevance_score.getD (1/2) ≤ 1) →
      ∀ e ∈ parseRankingResponse (.parsed rankings) events,
        0 ≤ e.relevance_score ∧ e.relevance_score ≤ 1) ∧
    (∀ (events : List Event) (userActivity : String) (maxEvents : Nat),
      ∀ e ∈ fallbackRanking events userActivity maxEvents,
        0 ≤ e.relevance_score ∧ e.relevance_score ≤ 1) ∧
    (∀ events : List Event,
      (∀ e ∈ events, 0 ≤ e.relevance_score ∧ e.relevance_score ≤ 1) →
      ∀ e ∈ removeCostInformation (finalRankingAndFiltering events),
        0 ≤ e.relevance_score ∧ e.relevance_score ≤ 1) := by
  refine ⟨?_, ?_, ?_⟩
  · intro rankings events hbound e he
    simp only [parseRankingResponse] at he
    rcases parseFold_mem events rankings [] e (mem_sortDescBy.mp he) with
      h | ⟨r, hr, e0, rfl⟩
    · exact absurd h (List.not_mem_nil e)
    · simpa [attachRanking] using hbound r hr
  · intro events userActivity maxEvents e he
    rw [fallbackRanking] at he
    split at he
    · rw [neutralRanking] at he
      have hmem := (List.take_sublist _ _).subset he
      obtain ⟨e0, _, rfl⟩ := List.mem_map.mp hmem
      norm_num
    · have hmem := mem_sortDescBy.mp ((List.take_sublist _ _).subset he)
      obtain ⟨e0, _, rfl⟩ := List.mem_map.mp hmem
      dsimp only
      by_cases hw : (pySplit (pyLower userActivity)).isEmpty
      · simp only [hw]
        norm_num
      · simp only [hw]
        refine ⟨?_, ?_⟩
        · simp only [Bool.not_eq_true, if_neg]
          refine le_min ?_ zero_le_one
          positivity
        · simp [min_le_right]
  · intro events hin e he
    simp only [removeCostInformation] at he
    obtain ⟨e0, he0, rfl⟩ := List.mem_map.mp he
    have h1 : e0 ∈ filterStage events :=
      mem_sortDescBy.mp ((List.take_sublist _ _).subset he0)
    simpa using hin e0 (filterStage_subset events h1)

/-- A backend entry with an in-range score. -/
def goodEntry : RankingEntry :=
  { event_id := some 0, relevance_score := some (mkRat 3 4),
    reason := some "good match" }

/-- `jazzTM` with `goodEntry` attached. -/
def goodScored : Event :=
  { jazzTM with relevance_score := mkRat 3 4,
                recommendation_reason := "good match" }

/-- `jazzTM` as scored by the text-matching fallback for "jazz". -/
def textMatched : Event :=
  { jazzTM with relevance_score := 1,
                recommendation_reason := "Text matching score: 1.00" }

/-- C9 witness: the three parts at concrete inputs. -/
theorem c9_witness :
    (0 ≤ goodScored.relevance_score ∧ goodScored.relevance_score ≤ 1) ∧
    (0 ≤ textMatched.relevance_score ∧ textMatched.relevance_score ≤ 1) ∧
    (0 ≤ goodScored.relevance_score ∧ goodScored.relevance_score ≤ 1) :=
  ⟨c9_score_range.1 [goodEntry] [jazzTM] (by decide) goodScored (by decide),
   c9_score_range.2.1 [jazzTM] "jazz" 30 textMatched (by decide),
   c9_score_range.2.2 [goodScored] (by decide) goodScored (by decide)⟩

/-- A backend entry with an out-of-range score (2.5). -/
def bigEntry : RankingEntry :=
  { event_id := some 0, relevance_score := some (mkRat 5 2),
    reason := some "match" }

/-- `jazzTM` with the out-of-range score attached. -/
def bigScored : Event :=
  { jazzTM with relevance_score := mkRat 5 2,
                recommendation_reason := "match" }

/-- C9 counterexample: a backend response scoring an event 2.5 flows
through parsing, filtering, ranking and cost-stripping unclamped — the
engine returns the event with `relevance_score = 2.5 ∉ [0,1]`. -/
theorem c9_counterexample :
    searchEvents [.ok [jazzTM]]
        (.available (.response (.parsed [bigEntry]))) (fun _ => none)
        "music" = .ok [bigScored] ∧
    ¬ (bigScored.relevance_score ≤ 1) := by
  decide

/-! ## C10 — cost information is stripped last, all else unchanged -/

/-- C10: whenever the evaluation stage succeeds, the engine's output is
exactly the final ranking with both price fields nulled: every
returned event has `price_min = price_max = none` and equals a
final-ranking event with only its price fields changed. -/
theorem c10_cost_stripped (providers : List ProviderResult)
    (backend : BackendOutcome) (days : Event → Option Int)
    (userActivity : String) (ranked : List Event)
    (h : applyAIEvaluation backend days userActivity
      (deduplicateEvents (fanOut providers)) = .ok ranked) :
    searchEvents providers backend days userActivity =
      .ok (removeCostInformation (finalRankingAndFiltering ranked)) ∧
    ∀ e ∈ removeCostInformation (finalRankingAndFiltering ranked),
      e.price_min = none ∧ e.price_max = none ∧
      ∃ e0 ∈ finalRankingAndFiltering ranked,
        e = { e0 with price_min := none, price_max := none } := by
  constructor
  · simp only [searchEvents, h]
  · intro e he
    simp only [removeCostInformation] at he
    obtain ⟨e0, he0, rfl⟩ := List.mem_map.mp he
    exact ⟨rfl, rfl, e0, he0, rfl⟩

/-- C10 witness: the concrete pipeline on one event over the fallback
path, with the returned event's price fields nulled. -/
theorem c10_witness :
    searchEvents [.ok [jazzTM]] (.available .failed) (fun _ => none) "jazz" =
      .ok (removeCostInformation (finalRankingAndFiltering [textMatched])) ∧
    textMatched.price_min = none := by
  have h := c10_cost_stripped [.ok [jazzTM]] (.available .failed)
    (fun _ => none) "jazz" [textMatched] (by decide)
  exact ⟨h.1, (h.2 textMatched (by decide)).1⟩

end WhatNowAI
